import Mathlib

/-!
Verification of the wildfire-detection utility scripts.

The development shallowly embeds the two pipelines of the repository:

* `lib/image_preprocessor.py` — the local tiling pipeline
  (`split_into_patches`): an image is a rectangular list of rows of
  pixels (the pixel type, i.e. the channel vector, is abstract), and
  numpy slicing is modelled by list `drop`/`take` with the clamped
  shape arithmetic of numpy.
* `lib/image_processor.py` and `lib/utils.py` — the remote
  batch-acquisition pipeline (`get_satellite_collection`,
  `process_single_event`, `process_event_batch`, `download_image`,
  `save_image`).  External services (Earth Engine, HTTP, the
  filesystem, CPython float rendering) are modelled by an `Env` oracle,
  and every function additionally returns the trace of its observable
  effects (queries issued, directories created, files written, log
  lines printed).
-/

namespace Wildfire

/-- Python list slice `l[a:b]` for non-negative bounds `a ≤ b`:
elements from index `a` (inclusive) to `b` (exclusive), clamped to the
length of the list. -/
def pySlice (l : List α) (a b : Nat) : List α := (l.drop a).take (b - a)

/-- Python `range(0, stop, step)` for `step > 0`: the multiples of
`step` below `stop`, i.e. `ceil(stop / step)` many values. -/
def pyRange (stop step : Nat) : List Nat :=
  List.range' 0 ((stop + step - 1) / step) step

/-- The numpy sub-array `image[y:y + patch_size, x:x + patch_size]` of a
3-channel image: slice the rows, then slice the pixels of each row (the
channel dimension is untouched). -/
def extract_patch (image : List (List α)) (y x patch_size : Nat) : List (List α) :=
  (pySlice image y (y + patch_size)).map (fun row => pySlice row x (x + patch_size))

/-- Function `split_into_patches` from `lib/image_preprocessor.py`.

In the source, `h, w, _ = image.shape`; here `h` is `image.length` and
`w` is the common row length `(image.headD []).length` (a numpy array
is rectangular).  The shape test `patch.shape[:2] == (patch_size,
patch_size)` is the clamped extent of the slice in each of the first
two dimensions, which is `min (start + patch_size) bound - start`
(numpy slices clamp at the array bound).  Incomplete edge patches fail
the test and are skipped. -/
def split_into_patches (image : List (List α)) (patch_size : Nat) :
    List (List (List α)) :=
  (pyRange image.length patch_size).flatMap (fun y =>
    (pyRange (image.headD []).length patch_size).filterMap (fun x =>
      if (min (y + patch_size) image.length - y,
          min (x + patch_size) (image.headD []).length - x) =
          (patch_size, patch_size)
      then some (extract_patch image y x patch_size) else none))

/-! ### The remote batch-acquisition pipeline

`lib/image_processor.py` and `lib/utils.py`.  Calendar dates embed
pandas timestamps at day granularity; `DateOffset(days=1)` is one
Gregorian calendar day. -/

/-- A calendar date, the day-granularity content of the pandas
timestamp `pd.to_datetime(row["acq_date"])`. -/
structure Date where
  year : Nat
  month : Nat
  day : Nat
deriving DecidableEq

def isLeapYear (y : Nat) : Bool :=
  (y % 4 == 0 && y % 100 != 0) || y % 400 == 0

def daysInMonth (y m : Nat) : Nat :=
  if m = 2 then (if isLeapYear y then 29 else 28)
  else if m = 4 ∨ m = 6 ∨ m = 9 ∨ m = 11 then 30
  else 31

/-- Timestamp arithmetic `acq_date + pd.DateOffset(days=1)`: the next Gregorian calendar day. -/
def nextDay (d : Date) : Date :=
  if d.day < daysInMonth d.year d.month then ⟨d.year, d.month, d.day + 1⟩
  else if d.month < 12 then ⟨d.year, d.month + 1, 1⟩
  else ⟨d.year + 1, 1, 1⟩

/-- Timestamp arithmetic `acq_date - pd.DateOffset(days=1)`: the previous Gregorian calendar day. -/
def prevDay (d : Date) : Date :=
  if 1 < d.day then ⟨d.year, d.month, d.day - 1⟩
  else if 1 < d.month then ⟨d.year, d.month - 1, daysInMonth d.year (d.month - 1)⟩
  else ⟨d.year - 1, 12, 31⟩

def pad2 (n : Nat) : String := if n < 10 then "0" ++ toString n else toString n

def pad4 (n : Nat) : String :=
  if n < 10 then "000" ++ toString n
  else if n < 100 then "00" ++ toString n
  else if n < 1000 then "0" ++ toString n
  else toString n

/-- Rendering `strftime("%Y-%m-%d")` on a day-granularity timestamp, and also the
rendering `str(acq_date.date())` used in the output filename. -/
def fmtDate (d : Date) : String :=
  pad4 d.year ++ "-" ++ pad2 d.month ++ "-" ++ pad2 d.day

/-- One fire event record: the `longitude`, `latitude` and `acq_date`
fields of a row of the fire DataFrame.  Coordinates are embedded as
exact rationals (the source holds IEEE floats; no claim depends on
rounding). -/
structure FireRow where
  longitude : ℚ
  latitude : ℚ
  acq_date : Date
deriving DecidableEq

/-- Geometry `ee.Geometry.Rectangle([xmin, ymin, xmax, ymax])`. -/
structure EEGeometry where
  xmin : ℚ
  ymin : ℚ
  xmax : ℚ
  ymax : ℚ
deriving DecidableEq

/-- The description of a filtered image collection:
`ee.ImageCollection(collection).filterBounds(geometry)
.filterDate(start_date, end_date)
.filterMetadata("CLOUDY_PIXEL_PERCENTAGE", "less_than", cloudMax)`
followed by the per-image normalization `img.divide(10000)`. -/
structure CollectionQuery where
  collection : String
  geometry : EEGeometry
  start_date : String
  end_date : String
  cloudMax : Nat
deriving DecidableEq

/-- The opaque server-side composite
`filtered_collection.median().select(bands).clip(geometry)`: a symbolic
handle, never materialized locally. -/
structure EEImage where
  query : CollectionQuery
  bands : List String
  clipRegion : EEGeometry
deriving DecidableEq

/-- The argument dictionary of `image.getThumbURL` in
`generate_download_url`. -/
structure ThumbParams where
  minVal : ℚ
  maxVal : ℚ
  dimensions : Nat
  format : String
  bands : List String
  region : EEGeometry
deriving DecidableEq

/-- The outcome of `requests.get(url, stream=True)`: either a raised
`requests.RequestException`, or a response with a final status code and
body bytes. -/
inductive HttpResult where
  | netError (msg : String)
  | response (status : Nat) (content : List Nat)
deriving DecidableEq

/-- The external world: Earth Engine (`size().getInfo()` and
`getThumbURL` can raise), the HTTP client, the filesystem (whether the
`open`/`write` in `save_image` raises `OSError`), and the CPython
`str()` rendering of a float coordinate. -/
structure Env where
  collectionSize : CollectionQuery → Except String Nat
  thumbURL : EEImage → ThumbParams → Except String String
  httpGet : String → HttpResult
  writeOk : String → Bool
  floatStr : ℚ → String

/-- Path join `os.path.join(a, b)` for one relative or absolute component `b`. -/
def pyPathJoin (a b : String) : String :=
  if b.data.head? = some '/' then b
  else if a = "" ∨ a.data.getLast? = some '/' then a ++ b
  else a ++ "/" ++ b

/-- Function `download_image` from `lib/utils.py`, with its printed log lines.
`response.raise_for_status()` raises `requests.HTTPError` exactly for
status codes in 400..599; the `except requests.RequestException` branch
catches both that and network errors, logs, and returns `None`. -/
def download_image (env : Env) (url : String) : Option (List Nat) × List String :=
  match env.httpGet url with
  | .netError e => (none, ["Failed to download image: " ++ e])
  | .response status content =>
      if 400 ≤ status ∧ status < 600 then
        (none, ["Failed to download image: HTTP error " ++ toString status])
      else (some content, [])

/-- The filesystem/log trace of `save_image`. -/
structure FsTrace where
  mkdirs : List String
  writes : List String
  logs : List String
deriving DecidableEq

/-- Function `save_image` from `lib/utils.py`.  On `None` content it only logs a
skip message.  Otherwise it creates the output directory, and the
`open`/`write` either succeeds (the file path is recorded in `writes`)
or raises `OSError`, which is caught and logged; the OSError text
itself is not modelled, only the `Failed to save {filename}` prefix of
the log line. -/
def save_image (env : Env) (image_content : Option (List Nat))
    (output_dir filename : String) : FsTrace :=
  match image_content with
  | none => ⟨[], [], ["Skipping save: No content for " ++ filename]⟩
  | some _ =>
      if env.writeOk (pyPathJoin output_dir filename) then
        ⟨[output_dir], [pyPathJoin output_dir filename],
         ["Saved: " ++ pyPathJoin output_dir filename]⟩
      else ⟨[output_dir], [], ["Failed to save " ++ filename]⟩

/-- Function `generate_download_url` from `lib/utils.py`: calls `getThumbURL`
with min 0, max 0.5, 512 px, PNG, bands B4/B3/B2 and the clip region. -/
def generate_download_url (env : Env) (image : EEImage) (rectangle : EEGeometry) :
    Except String String :=
  env.thumbURL image ⟨0, 1 / 2, 512, "png", ["B4", "B3", "B2"], rectangle⟩

/-- The query built by `get_satellite_collection`: the rectangle is the
±`buffer` box around the event, the cloud filter keeps images with
`CLOUDY_PIXEL_PERCENTAGE < 10`. -/
def satellite_query (longitude latitude : ℚ) (start_date end_date collection : String)
    (buffer : ℚ) : CollectionQuery :=
  ⟨collection,
   ⟨longitude - buffer, latitude - buffer, longitude + buffer, latitude + buffer⟩,
   start_date, end_date, 10⟩

/-- Function `get_satellite_collection` from `lib/image_processor.py`.  It asks
the backend for the size of the filtered collection (`getInfo` is a
network round trip and may raise); on size 0 it returns `(None, None)`,
otherwise the symbolic median composite together with the clip
geometry.  The second component of the result is the trace of queries
issued. -/
def get_satellite_collection (env : Env) (longitude latitude : ℚ)
    (start_date end_date collection : String) (buffer : ℚ) (bands : List String) :
    Except String (Option (EEImage × EEGeometry)) × List CollectionQuery :=
  match env.collectionSize
      (satellite_query longitude latitude start_date end_date collection buffer) with
  | .error e => (.error e,
      [satellite_query longitude latitude start_date end_date collection buffer])
  | .ok n =>
      if n = 0 then (.ok none,
        [satellite_query longitude latitude start_date end_date collection buffer])
      else
        (.ok (some
          (⟨satellite_query longitude latitude start_date end_date collection buffer,
            bands,
            (satellite_query longitude latitude start_date end_date collection buffer).geometry⟩,
           (satellite_query longitude latitude start_date end_date collection buffer).geometry)),
         [satellite_query longitude latitude start_date end_date collection buffer])

/-- The query issued on behalf of one fire event record: the default
collection and buffer of `get_satellite_collection`, and the
±1-day window around the acquisition date formatted `YYYY-MM-DD`. -/
def event_query (row : FireRow) : CollectionQuery :=
  satellite_query row.longitude row.latitude (fmtDate (prevDay row.acq_date))
    (fmtDate (nextDay row.acq_date)) "COPERNICUS/S2_SR_HARMONIZED" (2 / 100)

/-- The output filename
`f"{row[latitude]}_{row[longitude]}_{acq_date.date()}.png"` of
`process_single_event`. -/
def event_filename (env : Env) (row : FireRow) : String :=
  env.floatStr row.latitude ++ "_" ++ env.floatStr row.longitude ++ "_" ++
    fmtDate row.acq_date ++ ".png"

/-- The accumulated observable effects of processing one event. -/
structure Effects where
  queries : List CollectionQuery
  mkdirs : List String
  writes : List String
  logs : List String
deriving DecidableEq

/-- The `try:` block of `process_single_event` (everything between
field extraction and the final `return`), where exceptions still
propagate (`Except.error`).  Python truthiness of
`if image_content:` makes both `None` and empty bytes fall through to
`return None`; on nonempty bytes the image is saved and `output_path`
is returned unconditionally (the result of `save_image` is not
inspected). -/
def process_single_event_try (env : Env) (row : FireRow) (output_dir : String) :
    Except String (Option String) × Effects :=
  match get_satellite_collection env row.longitude row.latitude
      (fmtDate (prevDay row.acq_date)) (fmtDate (nextDay row.acq_date))
      "COPERNICUS/S2_SR_HARMONIZED" (2 / 100) ["B4", "B3", "B2"] with
  | (.error e, qs) => (.error e, ⟨qs, [], [], []⟩)
  | (.ok none, qs) => (.ok none, ⟨qs, [], [], []⟩)
  | (.ok (some (image, geometry)), qs) =>
      match generate_download_url env image geometry with
      | .error e => (.error e, ⟨qs, [], [], []⟩)
      | .ok url =>
          match download_image env url with
          | (none, dlogs) => (.ok none, ⟨qs, [], [], dlogs⟩)
          | (some content, dlogs) =>
              if content.isEmpty then (.ok none, ⟨qs, [], [], dlogs⟩)
              else
                (.ok (some (pyPathJoin output_dir (event_filename env row))),
                 ⟨qs,
                  (save_image env (some content) output_dir (event_filename env row)).mkdirs,
                  (save_image env (some content) output_dir (event_filename env row)).writes,
                  dlogs ++
                    (save_image env (some content) output_dir (event_filename env row)).logs⟩)

/-- The final observable outcome of processing one event. -/
structure EventTrace where
  result : Option String
  queries : List CollectionQuery
  mkdirs : List String
  writes : List String
  logs : List String
deriving DecidableEq

/-- Function `process_single_event` from `lib/image_processor.py`: the `try:`
block wrapped in `except Exception as e: print(...); return None`. -/
def process_single_event (env : Env) (row : FireRow) (output_dir : String) :
    EventTrace :=
  match process_single_event_try env row output_dir with
  | (.ok r, eff) => ⟨r, eff.queries, eff.mkdirs, eff.writes, eff.logs⟩
  | (.error e, eff) =>
      ⟨none, eff.queries, eff.mkdirs, eff.writes,
       eff.logs ++ ["Error processing event: " ++ e]⟩

/-- Function `process_event_batch` from `lib/image_processor.py`: one future per
row is submitted in row order, and `as_completed` yields the finished
futures in an unspecified completion order, modelled by the index list
`completionOrder` (a permutation of `0 .. N-1`). -/
def process_event_batch (env : Env) (fire_df : List FireRow) (output_dir : String)
    (completionOrder : List Nat) : List (Option String) :=
  completionOrder.filterMap (fun i =>
    (fire_df.map (fun row => (process_single_event env row output_dir).result))[i]?)

/-- Environment in which every step of the pipeline succeeds. -/
def okEnv : Env :=
  ⟨fun _ => .ok 2, fun _ _ => .ok "http://img", fun _ => .response 200 [1],
   fun _ => true, fun _ => "f"⟩

/-- Environment whose filtered collection is always empty. -/
def emptyEnv : Env :=
  ⟨fun _ => .ok 0, fun _ _ => .ok "http://img", fun _ => .response 200 [1],
   fun _ => true, fun _ => "g"⟩

/-- Environment in which `size().getInfo()` raises. -/
def errorEnv : Env :=
  ⟨fun _ => .error "boom", fun _ _ => .ok "http://img", fun _ => .response 200 [1],
   fun _ => true, fun _ => "g"⟩

/-- Environment in which the download succeeds but the filesystem write
raises `OSError`. -/
def writeFailEnv : Env :=
  ⟨fun _ => .ok 3, fun _ _ => .ok "http://img", fun _ => .response 200 [1, 2, 3],
   fun _ => false, fun _ => "7.5"⟩

/-- Environment whose HTTP GET resolves with a non-2xx, non-error
status (a 304 Not Modified final response). -/
def redirectEnv : Env :=
  ⟨fun _ => .ok 1, fun _ _ => .ok "http://img", fun _ => .response 304 [9],
   fun _ => true, fun _ => "h"⟩

theorem range'_eq_map_mul (step : Nat) :
    ∀ (n s : Nat), List.range' s n step = (List.range n).map (fun i => s + i * step) := by
  intro n
  induction n with
  | zero => intro s; rfl
  | succ n ih =>
      intro s
      rw [List.range'_succ, ih (s + step), List.range_succ_eq_map, List.map_cons,
        List.map_map]
      refine congrArg₂ List.cons (by omega) (List.map_congr_left fun i _ => ?_)
      simp only [Function.comp_apply, Nat.succ_mul, Nat.succ_eq_add_one]
      omega

theorem pyRange_eq_map (stop step : Nat) :
    pyRange stop step = (List.range ((stop + step - 1) / step)).map (fun i => i * step) := by
  unfold pyRange
  rw [range'_eq_map_mul]
  exact List.map_congr_left fun i _ => by omega

theorem filterMap_range_if_lt (f : Nat → β) (k : Nat) :
    ∀ n, (List.range n).filterMap (fun j => if j < k then some (f j) else none) =
      (List.range (min k n)).map f := by
  intro n
  induction n with
  | zero => simp
  | succ n ih =>
      rw [List.range_succ, List.filterMap_append, ih]
      by_cases hnk : n < k
      · have h1 : min k (n + 1) = n + 1 := by omega
        have h2 : min k n = n := by omega
        rw [h1, h2, List.range_succ, List.map_append]
        simp [hnk]
      · have h1 : min k (n + 1) = min k n := by omega
        rw [h1]
        simp [hnk]

theorem flatMap_range_if_lt (g : Nat → List β) (k : Nat) :
    ∀ n, (List.range n).flatMap (fun i => if i < k then g i else []) =
      (List.range (min k n)).flatMap g := by
  intro n
  induction n with
  | zero => simp
  | succ n ih =>
      rw [List.range_succ, List.flatMap_append, ih]
      by_cases hnk : n < k
      · have h1 : min k (n + 1) = n + 1 := by omega
        have h2 : min k n = n := by omega
        rw [h1, h2, List.range_succ, List.flatMap_append]
        simp [hnk]
      · have h1 : min k (n + 1) = min k n := by omega
        rw [h1]
        simp [hnk]

theorem filterMap_const_none (l : List γ) :
    l.filterMap (fun _ => (none : Option β)) = [] := by
  induction l with
  | nil => rfl
  | cons a l ih => simp [List.filterMap_cons, ih]

theorem tile_index_iff (P j m : Nat) (hP : 0 < P) : j * P + P ≤ m ↔ j < m / P := by
  have h1 : j * P + P = (j + 1) * P := by ring
  rw [h1, ← Nat.le_div_iff_mul_le hP]
  omega

/-- Closed form of `split_into_patches`: for a positive patch size the
kept patches are exactly those anchored at `(i * P, j * P)` for
`i < h / P` and `j < w / P`, enumerated row-major. -/
theorem split_into_patches_canonical (image : List (List α)) (P : Nat) (hP : 0 < P) :
    split_into_patches image P =
      (List.range (image.length / P)).flatMap (fun i =>
        (List.range ((image.headD []).length / P)).map (fun j =>
          extract_patch image (i * P) (j * P) P)) := by
  have hceil : ∀ m : Nat, m / P ≤ (m + P - 1) / P := fun m =>
    Nat.div_le_div_right (by omega)
  unfold split_into_patches
  rw [pyRange_eq_map, pyRange_eq_map, List.flatMap_map]
  have hin : ∀ y : Nat,
      (((List.range (((image.headD []).length + P - 1) / P)).map (fun j => j * P)).filterMap
        (fun x =>
          if (min (y + P) image.length - y,
              min (x + P) (image.headD []).length - x) = (P, P)
          then some (extract_patch image y x P) else none)) =
      if y + P ≤ image.length then
        (List.range ((image.headD []).length / P)).map (fun j =>
          extract_patch image y (j * P) P)
      else [] := by
    intro y
    rw [List.filterMap_map]
    by_cases hy : y + P ≤ image.length
    · rw [if_pos hy]
      have hfun : ((fun x =>
            if (min (y + P) image.length - y,
                min (x + P) (image.headD []).length - x) = (P, P)
            then some (extract_patch image y x P) else none) ∘ (fun j => j * P)) =
          (fun j => if j < (image.headD []).length / P
            then some (extract_patch image y (j * P) P) else none) := by
        funext j
        simp only [Function.comp_apply]
        refine if_congr ?_ rfl rfl
        rw [Prod.mk.injEq]
        constructor
        · rintro ⟨_, h2⟩
          exact (tile_index_iff P j (image.headD []).length hP).mp (by omega)
        · intro hj
          have h2 := (tile_index_iff P j (image.headD []).length hP).mpr hj
          exact ⟨by omega, by omega⟩
      rw [hfun, filterMap_range_if_lt]
      rw [Nat.min_eq_left (hceil (image.headD []).length)]
    · rw [if_neg hy]
      have hfun : ((fun x =>
            if (min (y + P) image.length - y,
                min (x + P) (image.headD []).length - x) = (P, P)
            then some (extract_patch image y x P) else none) ∘ (fun j => j * P)) =
          (fun _ => (none : Option (List (List α)))) := by
        funext j
        simp only [Function.comp_apply]
        rw [if_neg]
        rw [Prod.mk.injEq]
        rintro ⟨h1, _⟩
        omega
      rw [hfun, filterMap_const_none]
  have houter : (fun a : Nat =>
      (((List.range (((image.headD []).length + P - 1) / P)).map (fun j => j * P)).filterMap
        (fun x =>
          if (min (a * P + P) image.length - a * P,
              min (x + P) (image.headD []).length - x) = (P, P)
          then some (extract_patch image (a * P) x P) else none))) =
      (fun i => if i < image.length / P then
        (List.range ((image.headD []).length / P)).map (fun j =>
          extract_patch image (i * P) (j * P) P)
      else []) := by
    funext a
    rw [hin (a * P)]
    exact if_congr (tile_index_iff P a image.length hP) rfl rfl
  rw [houter, flatMap_range_if_lt]
  rw [Nat.min_eq_left (hceil image.length)]

theorem flatMap_range_map_length (a b : Nat) (g : Nat → Nat → β) :
    ((List.range a).flatMap (fun i => (List.range b).map (g i))).length = a * b := by
  induction a with
  | zero => simp
  | succ a ih =>
      rw [List.range_succ, List.flatMap_append]
      simp [ih, Nat.succ_mul]

theorem pySlice_length (l : List α) (a b : Nat) :
    (pySlice l a b).length = min b l.length - a := by
  unfold pySlice
  rw [List.length_take, List.length_drop]
  omega

theorem pySlice_subset (l : List α) (a b : Nat) : pySlice l a b ⊆ l :=
  fun _ hx => List.drop_subset a l (List.take_subset _ _ hx)

theorem extract_patch_shape (image : List (List α)) (w y x P : Nat)
    (hrect : ∀ row ∈ image, row.length = w)
    (hy : y + P ≤ image.length) (hx : x + P ≤ w) :
    (extract_patch image y x P).length = P ∧
    ∀ row ∈ extract_patch image y x P, row.length = P := by
  constructor
  · unfold extract_patch
    rw [List.length_map, pySlice_length]
    omega
  · intro row hrow
    unfold extract_patch at hrow
    rw [List.mem_map] at hrow
    obtain ⟨r, hr, hrw⟩ := hrow
    have hrlen : r.length = w := hrect r (pySlice_subset _ _ _ hr)
    subst hrw
    rw [pySlice_length, hrlen]
    omega

/-- C1: for every 3-channel image of height `H` and width `W` and every
patch size `P > 0`, `split_into_patches` returns exactly
`floor(H / P) * floor(W / P)` patches; every returned patch has exactly
shape `(P, P)` in its first two dimensions, and every returned patch is
an exactly-extracted full-size region of the image (partial right or
bottom edge tiles are discarded, never padded or resized). -/
theorem split_into_patches_spec (image : List (List α)) (P : Nat) (hP : 0 < P)
    (hrect : ∀ row ∈ image, row.length = (image.headD []).length) :
    (split_into_patches image P).length =
      (image.length / P) * ((image.headD []).length / P) ∧
    ∀ patch ∈ split_into_patches image P,
      patch.length = P ∧ (∀ row ∈ patch, row.length = P) ∧
      ∃ y x, y + P ≤ image.length ∧ x + P ≤ (image.headD []).length ∧
        patch = extract_patch image y x P := by
  rw [split_into_patches_canonical image P hP]
  refine ⟨flatMap_range_map_length _ _ _, ?_⟩
  intro patch hpatch
  rw [List.mem_flatMap] at hpatch
  obtain ⟨i, hi, hpatch⟩ := hpatch
  rw [List.mem_map] at hpatch
  obtain ⟨j, hj, hpe⟩ := hpatch
  have hyP : i * P + P ≤ image.length :=
    (tile_index_iff P i image.length hP).mpr (List.mem_range.mp hi)
  have hxP : j * P + P ≤ (image.headD []).length :=
    (tile_index_iff P j (image.headD []).length hP).mpr (List.mem_range.mp hj)
  subst hpe
  obtain ⟨h1, h2⟩ := extract_patch_shape image _ (i * P) (j * P) P hrect hyP hxP
  exact ⟨h1, h2, i * P, j * P, hyP, hxP, rfl⟩

/-- C1 witness: a 3 × 3 image with patch size 2 satisfies both
hypotheses and the conclusion (one single 2 × 2 patch). -/
theorem split_into_patches_spec_witness :
    (0 < 2 ∧
      (∀ row ∈ ([[0, 1, 2], [3, 4, 5], [6, 7, 8]] : List (List Nat)),
        row.length = (([[0, 1, 2], [3, 4, 5], [6, 7, 8]] : List (List Nat)).headD []).length)) ∧
    ((split_into_patches ([[0, 1, 2], [3, 4, 5], [6, 7, 8]] : List (List Nat)) 2).length =
      (([[0, 1, 2], [3, 4, 5], [6, 7, 8]] : List (List Nat)).length / 2) *
        ((([[0, 1, 2], [3, 4, 5], [6, 7, 8]] : List (List Nat)).headD []).length / 2) ∧
    ∀ patch ∈ split_into_patches ([[0, 1, 2], [3, 4, 5], [6, 7, 8]] : List (List Nat)) 2,
      patch.length = 2 ∧ (∀ row ∈ patch, row.length = 2) ∧
      ∃ y x, y + 2 ≤ ([[0, 1, 2], [3, 4, 5], [6, 7, 8]] : List (List Nat)).length ∧
        x + 2 ≤ (([[0, 1, 2], [3, 4, 5], [6, 7, 8]] : List (List Nat)).headD []).length ∧
        patch = extract_patch ([[0, 1, 2], [3, 4, 5], [6, 7, 8]] : List (List Nat)) y x 2) :=
  ⟨⟨by decide, by decide⟩,
    split_into_patches_spec ([[0, 1, 2], [3, 4, 5], [6, 7, 8]] : List (List Nat)) 2
      (by decide) (by decide)⟩

/-- C10: for every 3-channel image whose height or width is strictly
below the patch size, `split_into_patches` returns the empty list: no
padded or undersized tile is ever produced. -/
theorem split_into_patches_small_image (image : List (List α)) (P : Nat) (hP : 0 < P)
    (hsmall : image.length < P ∨ (image.headD []).length < P) :
    split_into_patches image P = [] := by
  rw [split_into_patches_canonical image P hP]
  rcases hsmall with hs | hs
  · rw [Nat.div_eq_of_lt hs]
    rfl
  · rw [Nat.div_eq_of_lt hs]
    simp

/-- C10 witness: a 2 × 5 image with patch size 3 produces no patches. -/
theorem split_into_patches_small_image_witness :
    (0 < 3 ∧
      (([[0, 0, 0, 0, 0], [0, 0, 0, 0, 0]] : List (List Nat)).length < 3 ∨
        (([[0, 0, 0, 0, 0], [0, 0, 0, 0, 0]] : List (List Nat)).headD []).length < 3)) ∧
    split_into_patches ([[0, 0, 0, 0, 0], [0, 0, 0, 0, 0]] : List (List Nat)) 3 = [] :=
  ⟨⟨by decide, by decide⟩,
    split_into_patches_small_image ([[0, 0, 0, 0, 0], [0, 0, 0, 0, 0]] : List (List Nat)) 3
      (by decide) (by decide)⟩

/-! ### Theorems about the batch-acquisition pipeline -/

theorem filterMap_length_of_isSome (f : γ → Option β) :
    ∀ l : List γ, (∀ a ∈ l, (f a).isSome) → (l.filterMap f).length = l.length := by
  intro l
  induction l with
  | nil => intro _; rfl
  | cons a l ih =>
      intro hall
      have hhead := hall a (List.mem_cons_self a l)
      cases hfa : f a with
      | none =>
          rw [hfa] at hhead
          simp at hhead
      | some b =>
          have ht : (l.filterMap f).length = l.length :=
            ih (fun x hx => hall x (List.mem_cons_of_mem a hx))
          simp [List.filterMap_cons, hfa, ht]

/-- C2: for every list of fire event records and every completion order
of the submitted futures, `process_event_batch` returns exactly one
result per record — each a saved-file path or `none` — regardless of
the order in which the tasks complete. -/
theorem process_event_batch_spec (env : Env) (fire_df : List FireRow)
    (output_dir : String) (completionOrder : List Nat)
    (hperm : completionOrder.Perm (List.range fire_df.length)) :
    (process_event_batch env fire_df output_dir completionOrder).length =
      fire_df.length ∧
    ∀ res ∈ process_event_batch env fire_df output_dir completionOrder,
      ∃ row ∈ fire_df, res = (process_single_event env row output_dir).result := by
  have hlt : ∀ i ∈ completionOrder, i < fire_df.length := by
    intro i hi
    exact List.mem_range.mp (hperm.mem_iff.mp hi)
  constructor
  · unfold process_event_batch
    have hsome : ∀ i ∈ completionOrder,
        ((fire_df.map (fun row => (process_single_event env row output_dir).result))[i]?).isSome := by
      intro i hi
      have hil : i < (fire_df.map
          (fun row => (process_single_event env row output_dir).result)).length := by
        rw [List.length_map]
        exact hlt i hi
      rw [List.getElem?_eq_getElem hil]
      rfl
    rw [filterMap_length_of_isSome _ completionOrder hsome, hperm.length_eq,
      List.length_range]
  · intro res hres
    unfold process_event_batch at hres
    rw [List.mem_filterMap] at hres
    obtain ⟨i, hi, hgot⟩ := hres
    have hil : i < (fire_df.map
        (fun row => (process_single_event env row output_dir).result)).length := by
      rw [List.length_map]
      exact hlt i hi
    rw [List.getElem?_eq_getElem hil, Option.some.injEq] at hgot
    have hmem : res ∈ fire_df.map
        (fun row => (process_single_event env row output_dir).result) := by
      rw [← hgot]
      exact List.getElem_mem hil
    rw [List.mem_map] at hmem
    obtain ⟨row, hrow, hre⟩ := hmem
    exact ⟨row, hrow, hre.symm⟩

/-- C2 witness: two records completed in reverse order still give two
results, each the outcome of one of the rows. -/
theorem process_event_batch_spec_witness :
    (([1, 0] : List Nat).Perm
      (List.range ([⟨1, 2, ⟨2020, 3, 1⟩⟩, ⟨3, 4, ⟨2020, 3, 2⟩⟩] : List FireRow).length)) ∧
    ((process_event_batch okEnv
        [⟨1, 2, ⟨2020, 3, 1⟩⟩, ⟨3, 4, ⟨2020, 3, 2⟩⟩] "out" [1, 0]).length =
      ([⟨1, 2, ⟨2020, 3, 1⟩⟩, ⟨3, 4, ⟨2020, 3, 2⟩⟩] : List FireRow).length ∧
     ∀ res ∈ process_event_batch okEnv
        [⟨1, 2, ⟨2020, 3, 1⟩⟩, ⟨3, 4, ⟨2020, 3, 2⟩⟩] "out" [1, 0],
       ∃ row ∈ ([⟨1, 2, ⟨2020, 3, 1⟩⟩, ⟨3, 4, ⟨2020, 3, 2⟩⟩] : List FireRow),
         res = (process_single_event okEnv row "out").result) :=
  ⟨by decide,
    process_event_batch_spec okEnv [⟨1, 2, ⟨2020, 3, 1⟩⟩, ⟨3, 4, ⟨2020, 3, 2⟩⟩]
      "out" [1, 0] (by decide)⟩

/-- C3: if the filtered imagery collection of a record is empty,
`process_single_event` returns `None` without raising (the `try:`
block completes normally with `None`), and neither writes a file nor
creates a directory. -/
theorem process_single_event_empty (env : Env) (row : FireRow) (output_dir : String)
    (h : env.collectionSize (event_query row) = .ok 0) :
    (process_single_event env row output_dir).result = none ∧
    (process_single_event env row output_dir).writes = [] ∧
    (process_single_event env row output_dir).mkdirs = [] ∧
    (process_single_event_try env row output_dir).1 = .ok none := by
  have htry : process_single_event_try env row output_dir =
      (.ok none, ⟨[event_query row], [], [], []⟩) := by
    unfold event_query at h
    unfold process_single_event_try get_satellite_collection
    rw [h]
    rfl
  unfold process_single_event
  rw [htry]
  exact ⟨rfl, rfl, rfl, rfl⟩

/-- C3 witness: in an environment whose collections are always empty,
a concrete record yields `None`, no write, no mkdir, and a normal
(non-raising) completion. -/
theorem process_single_event_empty_witness :
    emptyEnv.collectionSize (event_query ⟨3, 4, ⟨2019, 1, 1⟩⟩) = .ok 0 ∧
    ((process_single_event emptyEnv ⟨3, 4, ⟨2019, 1, 1⟩⟩ "out").result = none ∧
     (process_single_event emptyEnv ⟨3, 4, ⟨2019, 1, 1⟩⟩ "out").writes = [] ∧
     (process_single_event emptyEnv ⟨3, 4, ⟨2019, 1, 1⟩⟩ "out").mkdirs = [] ∧
     (process_single_event_try emptyEnv ⟨3, 4, ⟨2019, 1, 1⟩⟩ "out").1 = .ok none) :=
  ⟨rfl, process_single_event_empty emptyEnv ⟨3, 4, ⟨2019, 1, 1⟩⟩ "out" rfl⟩

/-- C4: the claim fails on the code.  `save_image` catches the
`OSError` internally and returns no signal, and `process_single_event`
returns `output_path` unconditionally after calling it — so on a
filesystem write failure the mapper reports success (a path) for an
item for which no file was written, contradicting both the spec and
the docstring of the function itself ("The file path of the saved image if
successful, otherwise None"). -/
theorem process_single_event_write_failure_bug :
    (process_single_event writeFailEnv ⟨-120, 38, ⟨2021, 8, 14⟩⟩ "out").result =
      some "out/7.5_7.5_2021-08-14.png" ∧
    (process_single_event writeFailEnv ⟨-120, 38, ⟨2021, 8, 14⟩⟩ "out").writes = [] ∧
    "Failed to save 7.5_7.5_2021-08-14.png" ∈
      (process_single_event writeFailEnv ⟨-120, 38, ⟨2021, 8, 14⟩⟩ "out").logs := by
  decide

/-- C5: every exception raised inside the `try:` block of
`process_single_event` is caught, logged as `Error processing event:`,
and converted to a `None` result — never propagated to the caller. -/
theorem process_single_event_catches (env : Env) (row : FireRow) (output_dir : String)
    (e : String) (h : (process_single_event_try env row output_dir).1 = .error e) :
    (process_single_event env row output_dir).result = none ∧
    ("Error processing event: " ++ e) ∈ (process_single_event env row output_dir).logs := by
  rcases hp : process_single_event_try env row output_dir with ⟨res, eff⟩
  rw [hp] at h
  have hres : res = Except.error e := h
  unfold process_single_event
  rw [hp, hres]
  exact ⟨rfl, by simp⟩

/-- C5 witness: when `size().getInfo()` raises, the error is caught,
logged, and converted to `None`. -/
theorem process_single_event_catches_witness :
    (process_single_event_try errorEnv ⟨5, 6, ⟨2018, 12, 31⟩⟩ "out").1 = .error "boom" ∧
    ((process_single_event errorEnv ⟨5, 6, ⟨2018, 12, 31⟩⟩ "out").result = none ∧
     ("Error processing event: " ++ "boom") ∈
       (process_single_event errorEnv ⟨5, 6, ⟨2018, 12, 31⟩⟩ "out").logs) :=
  ⟨rfl, process_single_event_catches errorEnv ⟨5, 6, ⟨2018, 12, 31⟩⟩ "out" "boom" rfl⟩

theorem process_single_event_try_path (env : Env) (row : FireRow)
    (output_dir p : String)
    (h : (process_single_event_try env row output_dir).1 = .ok (some p)) :
    p = pyPathJoin output_dir (event_filename env row) := by
  unfold process_single_event_try at h
  split at h
  · simp at h
  · simp at h
  · split at h
    · simp at h
    · split at h
      · simp at h
      · split at h
        · simp at h
        · simp at h
          exact h.symm

/-- C6: whenever `process_single_event` reports success, the reported
path is exactly the output directory joined with the filename
`{latitude}_{longitude}_{date}.png` derived deterministically from the
fields of the record — so re-running on the same record and succeeding
writes to the same path. -/
theorem process_single_event_output_path (env : Env) (row : FireRow)
    (output_dir p : String)
    (h : (process_single_event env row output_dir).result = some p) :
    p = pyPathJoin output_dir (event_filename env row) := by
  have h1 : (process_single_event_try env row output_dir).1 = .ok (some p) := by
    rcases hp : process_single_event_try env row output_dir with ⟨res, eff⟩
    unfold process_single_event at h
    rw [hp] at h
    rcases res with e | r
    · simp at h
    · simp at h
      simp [h]
  exact process_single_event_try_path env row output_dir p h1

/-- C6 witness: a concrete successful run reports exactly the joined
deterministic path. -/
theorem process_single_event_output_path_witness :
    (process_single_event okEnv ⟨1, 2, ⟨2020, 3, 1⟩⟩ "out").result =
      some "out/f_f_2020-03-01.png" ∧
    "out/f_f_2020-03-01.png" =
      pyPathJoin "out" (event_filename okEnv ⟨1, 2, ⟨2020, 3, 1⟩⟩) :=
  have h0 : (process_single_event okEnv ⟨1, 2, ⟨2020, 3, 1⟩⟩ "out").result =
      some "out/f_f_2020-03-01.png" := by decide
  ⟨h0, process_single_event_output_path okEnv ⟨1, 2, ⟨2020, 3, 1⟩⟩ "out"
    "out/f_f_2020-03-01.png" h0⟩

theorem get_satellite_collection_queries (env : Env) (lon lat : ℚ)
    (sd ed col : String) (buf : ℚ) (bands : List String) :
    (get_satellite_collection env lon lat sd ed col buf bands).2 =
      [satellite_query lon lat sd ed col buf] := by
  unfold get_satellite_collection
  cases henv : env.collectionSize (satellite_query lon lat sd ed col buf) with
  | error e => rfl
  | ok n =>
      by_cases hn : n = 0
      · simp [hn]
      · simp [hn]

theorem process_single_event_try_queries (env : Env) (row : FireRow)
    (output_dir : String) :
    (process_single_event_try env row output_dir).2.queries = [event_query row] := by
  have h2 := get_satellite_collection_queries env row.longitude row.latitude
    (fmtDate (prevDay row.acq_date)) (fmtDate (nextDay row.acq_date))
    "COPERNICUS/S2_SR_HARMONIZED" (2 / 100) ["B4", "B3", "B2"]
  unfold process_single_event_try
  repeat' split
  all_goals simp_all [event_query]

theorem process_single_event_queries_eq_try (env : Env) (row : FireRow)
    (output_dir : String) :
    (process_single_event env row output_dir).queries =
      (process_single_event_try env row output_dir).2.queries := by
  unfold process_single_event
  rcases hp : process_single_event_try env row output_dir with ⟨res, eff⟩
  rcases res with e | r
  · rfl
  · rfl

/-- C7: processing one record issues exactly one imagery query, whose
time window runs from one calendar day before the acquisition date to
one calendar day after it, both endpoints formatted `YYYY-MM-DD`. -/
theorem process_single_event_query_window (env : Env) (row : FireRow)
    (output_dir : String) :
    (process_single_event env row output_dir).queries = [event_query row] ∧
    (event_query row).start_date = fmtDate (prevDay row.acq_date) ∧
    (event_query row).end_date = fmtDate (nextDay row.acq_date) :=
  ⟨by rw [process_single_event_queries_eq_try, process_single_event_try_queries],
   rfl, rfl⟩

/-- C8 counterexample: the claim "returns `None` when the response
status is non-2xx" is false.  `raise_for_status` raises only for
status codes 400..599, so a final 304 (non-2xx) response returns its
body bytes, not `None`. -/
theorem download_image_non2xx_counterexample :
    redirectEnv.httpGet "http://img" = .response 304 [9] ∧
    ¬(200 ≤ 304 ∧ 304 < 300) ∧
    (download_image redirectEnv "http://img").1 = some [9] := by
  decide

/-- C8 (amended): `download_image` returns the body bytes when the GET
completes with any status outside 400..599 (which includes every 2xx),
and returns `None` when the request raises a network error or the
final status is in 400..599. -/
theorem download_image_spec (env : Env) (url : String) :
    (download_image env url).1 =
      match env.httpGet url with
      | .netError _ => none
      | .response status content =>
          if 400 ≤ status ∧ status < 600 then none else some content := by
  unfold download_image
  cases env.httpGet url with
  | netError e => rfl
  | response s c =>
      by_cases hc : 400 ≤ s ∧ s < 600
      · simp [hc]
      · simp [hc]

/-- C9: `save_image` called with `None` content only logs a skip
message: it creates no directory and writes no file, leaving the
filesystem unchanged. -/
theorem save_image_none_skip (env : Env) (output_dir filename : String) :
    (save_image env none output_dir filename).mkdirs = [] ∧
    (save_image env none output_dir filename).writes = [] ∧
    (save_image env none output_dir filename).logs =
      ["Skipping save: No content for " ++ filename] :=
  ⟨rfl, rfl, rfl⟩

end Wildfire
